import Mathlib

deriving instance DecidableEq for Except

namespace MHost

/-!
Verification of the mHost privileged helper's trust-boundary pipeline.

The definitions below are a shallow embedding of the Go sources:
  * the security manager (`SecurityManagerImpl`, `RateLimiter`) and the XPC
    request dispatcher (`HostsHelper.handleXPCRequest`, `handleRestoreHosts`);
  * the backup integrity manager (`BackupManagerImpl`).

Modelling conventions:
  * instants (`time.Time`) are `Int` values; durations are expressed in the
    same abstract unit, with one minute = 60, five minutes = 300 and the
    default blacklist duration (15 minutes) = 900; each Go call that samples
    `time.Now()` is modelled by an explicit `now` parameter (one instant per
    request);
  * Go maps are association lists with unique keys (`alookup` / `aset` /
    `aremove`);
  * the filesystem is a map from paths to byte lists; directories are not
    modelled (`os.MkdirAll` only affects directories, never file contents);
  * `md5` digests and `net.ParseIP` are abstracted as function parameters
    (`BackupEnv.hash`, `BackupEnv.shash`, `Env.ipError`): no claim depends on
    the internals of the digest or of IP parsing, only on comparisons of
    their results;
  * logging to the structured logger is ignored; `SecurityViolation` records
    and audit-trail records are returned explicitly.
-/

/-- Lookup in an association list (Go map read). -/
def alookup {α : Type} : List (String × α) → String → Option α
  | [], _ => none
  | (k', v) :: t, k => if k' = k then some v else alookup t k

/-- Insert or overwrite in an association list (Go map write). -/
def aset {α : Type} : List (String × α) → String → α → List (String × α)
  | [], k, v => [(k, v)]
  | (k', v') :: t, k, v => if k' = k then (k, v) :: t else (k', v') :: aset t k v

/-- Remove a key from an association list (Go `delete`; keys are unique in a
Go map, so removing every matching entry coincides with removing the one). -/
def aremove {α : Type} (l : List (String × α)) (k : String) : List (String × α) :=
  l.filter (fun p => p.1 ≠ k)

/-! ## Rate limiter (part_006, `RateLimiter.Allow`, lines 409–434) -/

/-- Per-client sliding-window rate limiter state (Go struct `RateLimiter`). -/
structure RateLimiter where
  requests : List Int
  maxReqs : Nat
  window : Int
deriving Repr, DecidableEq

/-- Go `RateLimiter.Allow`: prune instants not strictly after `now − window`
(`reqTime.After(cutoff)`), deny when `len(requests) >= maxReqs`, otherwise
record `now` and allow. -/
def RateLimiter.Allow (r : RateLimiter) (now : Int) : Bool × RateLimiter :=
  let cutoff := now - r.window
  let validRequests := r.requests.filter (fun t => cutoff < t)
  if r.maxReqs ≤ validRequests.length then
    (false, { r with requests := validRequests })
  else
    (true, { r with requests := validRequests ++ [now] })

/-- Modelled from the spec's words for claim C3: on each call, drop the
recorded instants *older than* `now − window` (strictly before the cutoff,
keeping an instant exactly at the cutoff), admit and record when the
remaining count is below the threshold. -/
def allowSpecClaim (r : RateLimiter) (now : Int) : Bool × RateLimiter :=
  let kept := r.requests.filter (fun t => now - r.window ≤ t)
  if kept.length < r.maxReqs then
    (true, { r with requests := kept ++ [now] })
  else
    (false, { r with requests := kept })

/-- The amended per-call description: drop the recorded instants at or before
`now − window`, admit and record when the remaining count is below the
threshold, deny without recording otherwise. -/
def allowSpecAmended (r : RateLimiter) (now : Int) : Bool × RateLimiter :=
  let kept := r.requests.filter (fun t => now - r.window < t)
  if kept.length < r.maxReqs then
    (true, { r with requests := kept ++ [now] })
  else
    (false, { r with requests := kept })

/-- Run a sequence of `Allow` calls at the given instants, collecting the
verdicts. -/
def runAllow (r : RateLimiter) : List Int → RateLimiter × List Bool
  | [] => (r, [])
  | t :: ts =>
    let p := r.Allow t
    let q := runAllow p.2 ts
    (q.1, p.1 :: q.2)

/-! ## Security manager (part_006, `SecurityManagerImpl`, lines 17–480) -/

/-- A dynamically typed request-parameter value (Go `interface{}`). -/
inductive PValue where
  | str : String → PValue
  | boolean : Bool → PValue
  | arr : List PValue → PValue
  | obj : List (String × PValue) → PValue

/-- Go type assertion `v.(string)`. -/
def asString : PValue → Option String
  | .str s => some s
  | _ => none

/-- XPC request (internal/helper/types.go, `XPCRequest`). -/
structure XPCRequest where
  operation : String
  clientID : String
  parameters : List (String × PValue)
  timestamp : Int

/-- XPC response, reduced to the fields the dispatcher sets on every path
(internal/helper/types.go, `XPCResponse`; the optional `data` payload carries
no information used by any claim). -/
structure XPCResponse where
  success : Bool
  error : String
deriving Repr, DecidableEq

/-- Security configuration (part_006, `SecurityConfig`). -/
structure SecurityConfig where
  maxRequestsPerMinute : Nat
  blacklistDuration : Int
  requireAuth : Bool
  allowedOperations : List String
  trustedClients : List String
  maxHostEntries : Nat
  validateHostnames : Bool
  validateIPs : Bool

/-- The configuration built by `NewSecurityManagerImpl` (part_006, lines
59–85): 60 requests/minute, 15-minute (= 900-unit) blacklist, five allowed
operations. -/
def defaultSecurityConfig : SecurityConfig where
  maxRequestsPerMinute := 60
  blacklistDuration := 900
  requireAuth := true
  allowedOperations :=
    ["write_hosts", "backup_hosts", "restore_hosts", "validate_hosts", "get_status"]
  trustedClients := []
  maxHostEntries := 1000
  validateHostnames := true
  validateIPs := true

/-- The mutable maps of `SecurityManagerImpl`: blacklist (client → expiry),
whitelist (client → bool, Go `map[string]bool`), per-client rate limiters. -/
structure SecurityState where
  blacklist : List (String × Int)
  whitelist : List (String × Bool)
  rateLimit : List (String × RateLimiter)
deriving Repr, DecidableEq

/-- External effects abstracted as parameters: `os.Stat` existence checks and
the `net.ParseIP`-based IP validation (`validateIPAddress` returns an error
message or nil; no claim depends on how an IP string is parsed). -/
structure Env where
  fileExists : String → Bool
  ipError : String → Option String

/-- Validation error kinds, mirroring the error codes wired in
`ValidateRequest` (part_006, lines 88–128). -/
inductive VErr where
  | basicValidation : String → VErr
  | clientBlacklisted : VErr
  | rateLimitExceeded : VErr
  | operationNotAllowed : String → VErr
  | parameterValidation : String → VErr
deriving Repr, DecidableEq

/-- Security-violation record (part_006, `SecurityViolation`). -/
structure SecurityViolation where
  clientID : String
  violation : String
  operation : String
  timestamp : Int
  severity : String
  description : String
deriving Repr, DecidableEq

/-- One audit-trail record (`AuditLogger.LogFailedOperation` /
`LogSuccessfulOperation`). -/
inductive AuditEvent where
  | failedOp : String → String → String → AuditEvent
  | successOp : String → String → AuditEvent
deriving Repr, DecidableEq

/-- Is this audit record a failed-operation record? -/
def AuditEvent.isFailed : AuditEvent → Bool
  | .failedOp _ _ _ => true
  | .successOp _ _ => false

/-- Model of `validateBasicRequest` (part_006, lines 131–158): non-empty client and
operation, non-zero timestamp within `[now − 5m, now + 1m]`. -/
def validateBasicRequest (req : XPCRequest) (now : Int) : Option String :=
  if req.clientID = "" then some "client ID is empty"
  else if req.operation = "" then some "operation is empty"
  else if req.timestamp = 0 then some "timestamp is zero"
  else if req.timestamp < now - 300 then some "request timestamp too old"
  else if now + 60 < req.timestamp then some "request timestamp too new"
  else none

/-- Model of `isBlacklisted` (part_006, lines 160–170): an unexpired entry blocks the
client; an expired entry is lazily deleted during the check. -/
def isBlacklisted (st : SecurityState) (clientID : String) (now : Int) :
    Bool × SecurityState :=
  match alookup st.blacklist clientID with
  | some expiry =>
    if now < expiry then (true, st)
    else (false, { st with blacklist := aremove st.blacklist clientID })
  | none => (false, st)

/-- Model of `addToBlacklist` (part_006, lines 172–177). -/
def addToBlacklist (cfg : SecurityConfig) (st : SecurityState) (clientID : String)
    (now : Int) : SecurityState :=
  { st with blacklist := aset st.blacklist clientID (now + cfg.blacklistDuration) }

/-- Model of `checkRateLimit` (part_006, lines 179–197): whitelisted clients bypass the
limiter entirely; otherwise the client's limiter (created on first use with
the configured threshold and a one-minute window) decides. -/
def checkRateLimit (cfg : SecurityConfig) (st : SecurityState) (clientID : String)
    (now : Int) : Bool × SecurityState :=
  if (alookup st.whitelist clientID).getD false then (true, st)
  else
    let limiter := (alookup st.rateLimit clientID).getD
      { requests := [], maxReqs := cfg.maxRequestsPerMinute, window := 60 }
    let p := limiter.Allow now
    (p.1, { st with rateLimit := aset st.rateLimit clientID p.2 })

/-- Model of `isOperationAllowed` (part_006, lines 200–207). -/
def isOperationAllowed (cfg : SecurityConfig) (operation : String) : Bool :=
  cfg.allowedOperations.contains operation

/-- UTF-8 byte count of one character. -/
def charBytes (c : Char) : Nat :=
  if c.toNat < 128 then 1
  else if c.toNat < 2048 then 2
  else if c.toNat < 65536 then 3
  else 4

/-- Go `len` on a string: its UTF-8 byte length. -/
def strBytes (s : String) : Nat :=
  (s.toList.map charBytes).sum

/-- ASCII letter or digit, the regex class `[a-zA-Z0-9]`. -/
def isAlnumChar (c : Char) : Bool :=
  c.isAlpha || c.isDigit

/-- One label of the hostname regex of `validateHostname` (part_006, line
334): `[a-zA-Z0-9]([a-zA-Z0-9-]{0,61}[a-zA-Z0-9])?` — 1 to 63 characters,
alphanumeric plus hyphen, first and last character alphanumeric. -/
def hostLabelOk (l : List Char) : Bool :=
  match l with
  | [] => false
  | c :: rest =>
    match rest.getLast? with
    | none => isAlnumChar c
    | some last =>
      isAlnumChar c && isAlnumChar last && l.length ≤ 63 &&
      rest.dropLast.all (fun ch => isAlnumChar ch || ch = '-')

/-- Split a character list at every occurrence of `sep` (the behaviour of
Go `strings.Split` / `String.splitOn` for a one-character separator). -/
def splitAtChar (sep : Char) : List Char → List (List Char)
  | [] => [[]]
  | c :: rest =>
    let r := splitAtChar sep rest
    if c = sep then [] :: r
    else
      match r with
      | h :: t => (c :: h) :: t
      | [] => [[c]]

/-- Full-string match of the hostname regex: dot-separated labels, each
matching `hostLabelOk` (the anchored regex admits exactly these strings). -/
def hostnameRegexMatches (hostname : String) : Bool :=
  (splitAtChar '.' hostname.toList).all hostLabelOk

/-- Does `sub` occur as a contiguous run inside `l`? -/
def infixCheck (sub : List Char) : List Char → Bool
  | [] => sub.isEmpty
  | c :: rest => sub.isPrefixOf (c :: rest) || infixCheck sub rest

/-- Go `strings.Contains`. -/
def strContains (s sub : String) : Bool :=
  infixCheck sub.toList s.toList

/-- The dangerous patterns of `isDangerousHostname` (part_006, lines 380–385). -/
def dangerousPatterns : List String :=
  ["localhost", "127.0.0.1", "0.0.0.0", "*.local"]

/-- ASCII lower-casing of a character list (Go `strings.ToLower`; every
string compared here is ASCII). -/
def lowerChars (l : List Char) : List Char :=
  l.map Char.toLower

/-- Case-insensitive Go `strings.Contains(strings.ToLower(s),
strings.ToLower(pat))`. -/
def containsCI (s pat : String) : Bool :=
  infixCheck (lowerChars pat.toList) (lowerChars s.toList)

/-- Model of `isDangerousHostname` (part_006, lines 378–394): case-insensitive literal
substring match against each dangerous pattern. -/
def isDangerousHostname (hostname : String) : Bool :=
  dangerousPatterns.any (fun p => containsCI hostname p)

/-- Model of `validateHostname` (part_006, lines 326–345): length bound (Go `len` is
the byte length), regex match, dangerous-name check, in that order. -/
def validateHostname (hostname : String) : Option String :=
  if 253 < strBytes hostname then some "hostname too long"
  else if hostnameRegexMatches hostname = false then some "invalid hostname format"
  else if isDangerousHostname hostname = true then some "dangerous hostname not allowed"
  else none

/-- Model of `validateFilePath` (part_006, lines 348–365): no `..` substring, absolute,
and the file must exist (Go treats only `os.IsNotExist` as failure; the
existence oracle is `Env.fileExists`). -/
def isAbsolutePath (path : String) : Bool :=
  match path.toList with
  | c :: _ => c = '/'
  | [] => false

def validateFilePath (env : Env) (path : String) : Option String :=
  if strContains path ".." then some "path traversal not allowed"
  else if isAbsolutePath path = false then some "only absolute paths allowed"
  else if env.fileExists path = false then some "file does not exist"
  else none

/-- Model of `validateHostEntry` (part_006, lines 276–309): requires non-empty string
`ip` and `hostname` fields, validates them per the config toggles, and bounds
an optional string `comment` to 200 bytes. -/
def validateHostEntry (env : Env) (cfg : SecurityConfig)
    (entry : List (String × PValue)) : Option String :=
  match (alookup entry "ip").bind asString with
  | none => some "missing or invalid ip"
  | some ip =>
    if ip = "" then some "missing or invalid ip"
    else
      match (alookup entry "hostname").bind asString with
      | none => some "missing or invalid hostname"
      | some hostname =>
        if hostname = "" then some "missing or invalid hostname"
        else
          match (if cfg.validateIPs then env.ipError ip else none) with
          | some msg => some ("invalid IP address: " ++ msg)
          | none =>
            match (if cfg.validateHostnames then validateHostname hostname else none) with
            | some msg => some ("invalid hostname: " ++ msg)
            | none =>
              match (alookup entry "comment").bind asString with
              | some comment =>
                if 200 < strBytes comment then some "comment too long" else none
              | none => none

/-- The per-entry loop of `validateWriteHostsParams` (part_006, lines
241–250): each element must be an object and pass `validateHostEntry`; the
first failure aborts. -/
def validateEntriesList (env : Env) (cfg : SecurityConfig) :
    List PValue → Option String
  | [] => none
  | e :: rest =>
    match e with
    | .obj entryMap =>
      match validateHostEntry env cfg entryMap with
      | some msg => some ("entry validation failed: " ++ msg)
      | none => validateEntriesList env cfg rest
    | _ => some "entry is not a valid object"

/-- Model of `validateWriteHostsParams` (part_006, lines 225–253). -/
def validateWriteHostsParams (env : Env) (cfg : SecurityConfig)
    (params : List (String × PValue)) : Option String :=
  match alookup params "entries" with
  | none => some "missing entries parameter"
  | some v =>
    match v with
    | .arr entriesSlice =>
      if cfg.maxHostEntries < entriesSlice.length then some "too many host entries"
      else validateEntriesList env cfg entriesSlice
    | _ => some "entries must be an array"

/-- Model of `validateRestoreHostsParams` (part_006, lines 256–273): requires a string
`backup_path` parameter and validates it as a file path; no other parameter
is read. -/
def validateRestoreHostsParams (env : Env) (params : List (String × PValue)) :
    Option String :=
  match alookup params "backup_path" with
  | none => some "missing backup_path parameter"
  | some v =>
    match asString v with
    | none => some "backup_path must be a string"
    | some p =>
      match validateFilePath env p with
      | some msg => some ("invalid backup path: " ++ msg)
      | none => none

/-- Model of `validateParameters` (part_006, lines 210–222). -/
def validateParameters (env : Env) (cfg : SecurityConfig) (req : XPCRequest) :
    Option String :=
  match req.operation with
  | "write_hosts" => validateWriteHostsParams env cfg req.parameters
  | "restore_hosts" => validateRestoreHostsParams env req.parameters
  | "backup_hosts" => none
  | "validate_hosts" => none
  | "get_status" => none
  | op => some ("unknown operation: " ++ op)

/-- The result of one `ValidateRequest` call: the verdict, the mutated maps,
and the `SecurityViolation` / audit records written during the call
(`logSecurityViolation`, part_006 lines 396–407, writes one violation record
and one failed-operation audit record). -/
structure ValidateResult where
  verdict : Except VErr Unit
  state : SecurityState
  violations : List SecurityViolation
  audit : List AuditEvent

/-- Model of `logSecurityViolation` (part_006, lines 396–407): one violation record
plus one failed-operation audit record. -/
def logViolation (clientID violation operation severity description : String)
    (now : Int) : SecurityViolation × AuditEvent :=
  (⟨clientID, violation, operation, now, severity, description⟩,
   .failedOp operation clientID (violation ++ ": " ++ description))

/-- Model of `SecurityManagerImpl.ValidateRequest` (part_006, lines 88–128): basic
validation, blacklist check, rate limit (escalating a denial to a blacklist
entry), operation allow-list, parameter validation — short-circuiting, with
one `logSecurityViolation` call per failure. -/
def validateRequest (env : Env) (cfg : SecurityConfig) (st : SecurityState)
    (req : XPCRequest) (now : Int) : ValidateResult :=
  match validateBasicRequest req now with
  | some msg =>
    let lv := logViolation req.clientID "basic_validation" req.operation "high" msg now
    ⟨.error (.basicValidation msg), st, [lv.1], [lv.2]⟩
  | none =>
    let bl := isBlacklisted st req.clientID now
    if bl.1 then
      let lv := logViolation req.clientID "blacklisted" req.operation "high"
        "Client is blacklisted" now
      ⟨.error .clientBlacklisted, bl.2, [lv.1], [lv.2]⟩
    else
      let rl := checkRateLimit cfg bl.2 req.clientID now
      if rl.1 = false then
        let lv := logViolation req.clientID "rate_limit" req.operation "medium"
          "Rate limit exceeded" now
        ⟨.error .rateLimitExceeded, addToBlacklist cfg rl.2 req.clientID now,
         [lv.1], [lv.2]⟩
      else if isOperationAllowed cfg req.operation = false then
        let lv := logViolation req.clientID "unauthorized_operation" req.operation
          "high" "Operation not allowed" now
        ⟨.error (.operationNotAllowed req.operation), rl.2, [lv.1], [lv.2]⟩
      else
        match validateParameters env cfg req with
        | some msg =>
          let lv := logViolation req.clientID "parameter_validation" req.operation
            "medium" msg now
          ⟨.error (.parameterValidation msg), rl.2, [lv.1], [lv.2]⟩
        | none => ⟨.ok (), rl.2, [], []⟩

/-- The error text `ValidateRequest` surfaces for each rejection kind. -/
def errMessage : VErr → String
  | .basicValidation msg => "basic validation failed: " ++ msg
  | .clientBlacklisted => "client is blacklisted"
  | .rateLimitExceeded => "rate limit exceeded"
  | .operationNotAllowed op => "operation not allowed: " ++ op
  | .parameterValidation msg => "parameter validation failed: " ++ msg

/-- The result of one `handleXPCRequest` call. -/
structure HandleResult where
  response : XPCResponse
  state : SecurityState
  violations : List SecurityViolation
  audit : List AuditEvent

/-- Model of `HostsHelper.handleXPCRequest` (part_006, lines 625–672): validate; on
rejection append a failed-operation audit record (in addition to the one the
validator already wrote) and return a failure response; on acceptance
dispatch the operation and append a success or failed audit record. The
concrete operation handlers are abstracted as `dispatch`. -/
def handleXPCRequest (env : Env) (cfg : SecurityConfig)
    (dispatch : XPCRequest → XPCResponse) (st : SecurityState) (req : XPCRequest)
    (now : Int) : HandleResult :=
  let vr := validateRequest env cfg st req now
  match vr.verdict with
  | .error e =>
    ⟨⟨false, "Security validation failed: " ++ errMessage e⟩, vr.state,
     vr.violations,
     vr.audit ++ [.failedOp req.operation req.clientID (errMessage e)]⟩
  | .ok _ =>
    let resp := dispatch req
    if resp.success then
      ⟨resp, vr.state, vr.violations,
       vr.audit ++ [.successOp req.operation req.clientID]⟩
    else
      ⟨resp, vr.state, vr.violations,
       vr.audit ++ [.failedOp req.operation req.clientID resp.error]⟩

/-- An environment whose existence oracle accepts every path and whose IP
validator accepts every address; used to instantiate witnesses. -/
def env0 : Env where
  fileExists := fun _ => true
  ipError := fun _ => none

/-! ## Claims C1, C4, C5 about `ValidateRequest` / `handleXPCRequest` -/

/-- Whether an audit record is a success record. -/
def AuditEvent.isSuccess : AuditEvent → Bool
  | .failedOp _ _ _ => false
  | .successOp _ _ => true

/-! ## Claim C7: dangerous hostname rejection -/

/-! ## Backup integrity manager (part_007, `BackupManagerImpl`) -/

/-- The filesystem as a map from paths to file contents (byte lists). -/
abbrev FS := List (String × List Nat)

/-- Backup metadata (part_007, `BackupInfo`). -/
structure BackupInfo where
  id : String
  name : String
  path : String
  originalPath : String
  createdAt : Int
  size : Nat
  checksum : String
  description : String
  tags : List String
  automatic : Bool
deriving Repr, DecidableEq

/-- The in-memory backup index, `backup_id → BackupInfo`. -/
abbrev BackupIndex := List (String × BackupInfo)

/-- Backup manager configuration plus its abstracted collaborators: the `md5`
content digest (`calculateChecksum`), the `md5`-based 8-character short hash
of a path string (`shortHash`), the backup directory and `maxBackups`. -/
structure BackupEnv where
  hash : List Nat → String
  shash : String → String
  backupDir : String
  maxBackups : Nat

/-- Go `filepath.Base`: last path component after dropping trailing slashes;
`"/"` for all-slash paths, `"."` for the empty path. -/
def baseNameOf (p : String) : String :=
  let comps := (splitAtChar '/' p.toList).filter (fun c => c ≠ [])
  match comps.getLast? with
  | some l => ⟨l⟩
  | none =>
    match p.toList with
    | '/' :: _ => "/"
    | _ => "."

/-- Go `strings.TrimSuffix`. -/
def trimSuffixStr (s suf : String) : String :=
  if suf.toList.reverse.isPrefixOf s.toList.reverse then
    ⟨(s.toList.reverse.drop suf.toList.length).reverse⟩
  else s

/-- Model of `generateBackupID` (part_007, lines 353–361): `base-timestamp-shorthash`
where `base` is the name when non-empty, otherwise the source's base name,
and `timestamp` is `time.Now()` rendered to second resolution (the opaque
`nowStr`). -/
def generateBackupID (benv : BackupEnv) (sourcePath name nowStr : String) : String :=
  let baseName := if name = "" then baseNameOf sourcePath else name
  baseName ++ "-" ++ nowStr ++ "-" ++ benv.shash sourcePath

/-- The backup file location `filepath.Join(backupDir, id + ".backup")`. -/
def backupFilePath (benv : BackupEnv) (backupID : String) : String :=
  benv.backupDir ++ "/" ++ backupID ++ ".backup"

/-- Model of `cleanupOldBackups` (part_007, lines 318–351): when the index exceeds
`maxBackups`, sort all entries by `created_at` ascending, delete the oldest
`len − maxBackups` entries (files and index records), keep the rest. The
decision looks only at `created_at` — tags and the automatic flag are
ignored. -/
def cleanupOldBackups (benv : BackupEnv) (idx : BackupIndex) (fs : FS) :
    BackupIndex × FS :=
  if idx.length ≤ benv.maxBackups then (idx, fs)
  else
    let sorted := idx.insertionSort (fun a b => a.2.createdAt ≤ b.2.createdAt)
    let toDelete := sorted.take (idx.length - benv.maxBackups)
    (sorted.drop (idx.length - benv.maxBackups),
     toDelete.foldl (fun f e => aremove f e.2.path) fs)

/-- The outcome of one `CreateBackup` call. -/
structure CreateOutcome where
  result : Except String BackupInfo
  index : BackupIndex
  fs : FS
deriving DecidableEq

/-- Model of `CreateBackup` (part_007, lines 91–159): require the source to exist,
generate the identifier, return the already-indexed record when the same
identifier exists, otherwise copy the file, checksum and stat the copy,
insert into the index and run retention cleanup. -/
def createBackup (benv : BackupEnv) (idx : BackupIndex) (fs : FS)
    (sourcePath name description : String) (tags : List String) (automatic : Bool)
    (nowStr : String) (now : Int) : CreateOutcome :=
  match alookup fs sourcePath with
  | none => ⟨.error "source file does not exist", idx, fs⟩
  | some bytes =>
    let backupID := generateBackupID benv sourcePath name nowStr
    let backupPath := backupFilePath benv backupID
    match alookup idx backupID with
    | some existing => ⟨.ok existing, idx, fs⟩
    | none =>
      let fs1 := aset fs backupPath bytes
      let info : BackupInfo :=
        ⟨backupID, name, backupPath, sourcePath, now, bytes.length,
         benv.hash bytes, description, tags, automatic⟩
      let p := cleanupOldBackups benv (idx ++ [(backupID, info)]) fs1
      ⟨.ok info, p.1, p.2⟩

/-- Restore error kinds (part_007, lines 161–209). -/
inductive RestoreErr where
  | backupNotFound : RestoreErr
  | backupFileMissing : RestoreErr
  | backupCorrupted : String → String → RestoreErr
deriving Repr, DecidableEq

/-- The outcome of one `RestoreBackup` call. -/
structure RestoreOutcome where
  result : Except RestoreErr Unit
  fs : FS
deriving DecidableEq

/-- Model of `RestoreBackup` (part_007, lines 161–209): not-found when the id is
absent, filesystem error when the backup file is missing, corruption error on
checksum mismatch (when a checksum was recorded) — all before any write;
otherwise copy the backup to the target (defaulting to the original path). -/
def restoreBackup (benv : BackupEnv) (idx : BackupIndex) (fs : FS)
    (backupID targetPath : String) : RestoreOutcome :=
  match alookup idx backupID with
  | none => ⟨.error .backupNotFound, fs⟩
  | some info =>
    match alookup fs info.path with
    | none => ⟨.error .backupFileMissing, fs⟩
    | some bytes =>
      if info.checksum ≠ "" ∧ benv.hash bytes ≠ info.checksum then
        ⟨.error (.backupCorrupted info.checksum (benv.hash bytes)), fs⟩
      else
        let target := if targetPath = "" then info.originalPath else targetPath
        ⟨.ok (), aset fs target bytes⟩

/-- Model of `ListBackups` (part_007, lines 238–254): snapshot of the index values
sorted by `created_at` descending. -/
def listBackups (idx : BackupIndex) : List BackupInfo :=
  (idx.map (fun p => p.2)).insertionSort (fun a b => b.createdAt ≤ a.createdAt)

/-- The error text surfaced by `RestoreBackup`. -/
def restoreErrText : RestoreErr → String
  | .backupNotFound => "backup not found"
  | .backupFileMissing => "backup file does not exist"
  | .backupCorrupted _ _ => "backup file corrupted: checksum mismatch"

/-- The tail of `handleRestoreHosts` once the backup id has been resolved:
read the optional `target_path` parameter (defaulting to `/etc/hosts`), call
`RestoreBackup` with it, and wrap the outcome in a response. -/
def handleRestoreWith (benv : BackupEnv) (idx : BackupIndex) (fs : FS)
    (params : List (String × PValue)) (backupID : String) : XPCResponse × FS :=
  let targetPath :=
    match (alookup params "target_path").bind asString with
    | some t => if t = "" then "/etc/hosts" else t
    | none => "/etc/hosts"
  let r := restoreBackup benv idx fs backupID targetPath
  match r.result with
  | .error e => (⟨false, "Failed to restore backup: " ++ restoreErrText e⟩, r.fs)
  | .ok _ => (⟨true, ""⟩, r.fs)

/-- Model of `HostsHelper.handleRestoreHosts` (part_006, lines 751–794): take the
string `backup_id` parameter, falling back to the legacy `backup_path`
(deriving an id from its base name); restore to the `target_path` parameter
when present and non-empty, else to `/etc/hosts`. -/
def handleRestoreHosts (benv : BackupEnv) (idx : BackupIndex) (fs : FS)
    (params : List (String × PValue)) : XPCResponse × FS :=
  match (alookup params "backup_id").bind asString with
  | some backupID => handleRestoreWith benv idx fs params backupID
  | none =>
    match (alookup params "backup_path").bind asString with
    | some backupPath =>
      handleRestoreWith benv idx fs params
        (baseNameOf (trimSuffixStr backupPath ".backup"))
    | none => (⟨false, "backup_id or backup_path parameter is required"⟩, fs)

/-! ## Claim C2: corrupted backups are never restored -/

/-- A backup record whose file has been corrupted after creation. -/
def corruptInfo : BackupInfo :=
  ⟨"b1", "n", "/bk/b1.backup", "/etc/hosts", 10, 1, "goodsum", "", [], true⟩

/-! ## Claim C6: `restore_hosts` parameter sanitization vs `backup_id` -/

/-- A backup record reachable by id, used to show the handler itself accepts
`backup_id`-only requests. -/
def c6Info : BackupInfo :=
  ⟨"hosts-20240101-120000-abcd1234", "hosts", "/bk/hosts-20240101-120000-abcd1234.backup",
   "/etc/hosts", 5, 1, "ck", "", [], true⟩

/-! ## Claim C9: idempotent create within the identifier-resolution window -/

/-- The backup environment of the idempotence witness. -/
def benvW : BackupEnv := ⟨fun _ => "ck", fun _ => "hh", "/bk", 10⟩

/-- The record created by the witness's first `CreateBackup` call. -/
def infoW : BackupInfo :=
  ⟨"n-T0-hh", "n", "/bk/n-T0-hh.backup", "/etc/hosts", 100, 2, "ck", "d", ["t"], true⟩

/-! ## Claim C10: `target_path` is never sanitized -/

/-- The backup record of the C10 witness (no recorded checksum). -/
def c10Info : BackupInfo :=
  ⟨"b3", "n", "/bk/b3.backup", "/etc/hosts", 3, 1, "", "", [], false⟩

/-! ## Claim C8: retention policy -/

/-- The arguments of one `CreateBackup` call in a retention scenario (the
source path is fixed; `now` is the call instant, `nowStr` its second-level
rendering used inside the identifier). -/
structure CreateItem where
  name : String
  description : String
  tags : List String
  automatic : Bool
  nowStr : String
  now : Int
deriving Repr, DecidableEq

/-- Run a sequence of `CreateBackup` calls against one source path. -/
def runCreates (benv : BackupEnv) (sourcePath : String) :
    BackupIndex × FS → List CreateItem → BackupIndex × FS
  | p, [] => p
  | p, it :: rest =>
    let r := createBackup benv p.1 p.2 sourcePath it.name it.description it.tags
      it.automatic it.nowStr it.now
    runCreates benv sourcePath (r.index, r.fs) rest

/-- The identifier `CreateBackup` generates for one call. -/
def itemId (benv : BackupEnv) (sourcePath : String) (it : CreateItem) : String :=
  generateBackupID benv sourcePath it.name it.nowStr

/-- The backup file path of one call. -/
def itemPath (benv : BackupEnv) (sourcePath : String) (it : CreateItem) : String :=
  backupFilePath benv (itemId benv sourcePath it)

/-- The `BackupInfo` record one call creates (the source holds `bytes`). -/
def itemInfo (benv : BackupEnv) (sourcePath : String) (bytes : List Nat)
    (it : CreateItem) : BackupInfo :=
  ⟨itemId benv sourcePath it, it.name, itemPath benv sourcePath it, sourcePath,
   it.now, bytes.length, benv.hash bytes, it.description, it.tags, it.automatic⟩

/-- The index entry one call creates. -/
def itemEntry (benv : BackupEnv) (sourcePath : String) (bytes : List Nat)
    (it : CreateItem) : String × BackupInfo :=
  (itemId benv sourcePath it, itemInfo benv sourcePath bytes it)

/-- The index retention leaves after a sequence of creates: the entries of
the `maxBackups` most recent calls, in creation order. -/
def survivorsIndex (benv : BackupEnv) (sourcePath : String) (bytes : List Nat)
    (l : List CreateItem) : BackupIndex :=
  (l.drop (l.length - benv.maxBackups)).map (itemEntry benv sourcePath bytes)

/-- Witness for claim C8: `maxBackups = 2`, three creates of `/s` at instants
1, 2, 3; the final index holds the entries of the last two creates and
`ListBackups` lists them most recent first. -/
theorem alookup_aset_self {α : Type} (l : List (String × α)) (k : String) (v : α) :
    alookup (aset l k v) k = some v := by
  induction l with
  | nil => simp [aset, alookup]
  | cons h t ih =>
    by_cases hk : h.1 = k
    · simp [aset, hk, alookup]
    · simp [aset, hk, alookup, ih]

theorem alookup_aset_ne {α : Type} (l : List (String × α)) (k k' : String) (v : α)
    (h : k ≠ k') : alookup (aset l k v) k' = alookup l k' := by
  induction l with
  | nil => simp [aset, alookup, h]
  | cons hd t ih =>
    by_cases hk : hd.1 = k
    · simp [aset, hk, alookup, h]
    · simp [aset, hk, alookup, ih]

theorem alookup_aremove_ne {α : Type} (l : List (String × α)) (k k' : String)
    (h : k ≠ k') : alookup (aremove l k) k' = alookup l k' := by
  induction l with
  | nil => rfl
  | cons hd t ih =>
    simp only [aremove, ne_eq, decide_not] at ih ⊢
    by_cases hk : hd.1 = k
    · have h2 : ¬ hd.1 = k' := by rw [hk]; exact h
      simp [List.filter_cons, hk, alookup, h2, ih, h]
    · simp [List.filter_cons, hk, alookup, ih]

theorem alookup_aremove_self {α : Type} (l : List (String × α)) (k : String) :
    alookup (aremove l k) k = none := by
  induction l with
  | nil => rfl
  | cons hd t ih =>
    simp only [aremove, ne_eq, decide_not] at ih ⊢
    by_cases hk : hd.1 = k
    · simp [List.filter_cons, hk, alookup, ih]
    · simp [List.filter_cons, hk, alookup, ih]

theorem alookup_eq_none_of_forall {α : Type} (l : List (String × α)) (k : String)
    (h : ∀ p ∈ l, p.1 ≠ k) : alookup l k = none := by
  induction l with
  | nil => rfl
  | cons hd t ih =>
    have h1 : hd.1 ≠ k := h hd (by simp)
    simp only [alookup, if_neg h1]
    exact ih (fun p hp => h p (by simp [hp]))

theorem runAllow_results (N : Nat) (w : Int) :
    ∀ (ts acc : List Int),
      (∀ t ∈ ts, ∀ a ∈ acc, t - w < a) →
      (∀ t ∈ ts, ∀ t' ∈ ts, t - w < t') →
      acc.length ≤ N →
      (runAllow ⟨acc, N, w⟩ ts).2 =
        List.replicate (min ts.length (N - acc.length)) true ++
        List.replicate (ts.length - (N - acc.length)) false := by
  intro ts
  induction ts with
  | nil => intro acc _ _ _; simp [runAllow]
  | cons t0 rest ih =>
    intro acc hacc hwin hlen
    have hfilter : acc.filter (fun a => t0 - w < a) = acc := by
      apply List.filter_eq_self.mpr
      intro a ha
      exact decide_eq_true (hacc t0 (by simp) a ha)
    by_cases hfull : acc.length = N
    · have hAllow : RateLimiter.Allow ⟨acc, N, w⟩ t0 = (false, ⟨acc, N, w⟩) := by
        simp only [RateLimiter.Allow, hfilter]
        rw [if_pos (le_of_eq hfull.symm)]
      have hrec := ih acc (fun u hu a ha => hacc u (by simp [hu]) a ha)
        (fun u hu v hv => hwin u (by simp [hu]) v (by simp [hv]))
        hlen
      simp only [runAllow, hAllow, hrec, hfull]
      simp [List.replicate_succ]
    · have hlt : acc.length < N := lt_of_le_of_ne hlen hfull
      have hAllow : RateLimiter.Allow ⟨acc, N, w⟩ t0 = (true, ⟨acc ++ [t0], N, w⟩) := by
        simp only [RateLimiter.Allow, hfilter]
        rw [if_neg (by omega)]
      have hacc' : ∀ u ∈ rest, ∀ a ∈ acc ++ [t0], u - w < a := by
        intro u hu a ha
        rcases List.mem_append.mp ha with hmem | hmem
        · exact hacc u (by simp [hu]) a hmem
        · have he : a = t0 := by simpa using hmem
          subst he
          exact hwin u (by simp [hu]) a (by simp)
      have hrec := ih (acc ++ [t0]) hacc'
        (fun u hu v hv => hwin u (by simp [hu]) v (by simp [hv]))
        (by simp only [List.length_append, List.length_cons, List.length_nil]; omega)
      simp only [runAllow, hAllow, hrec]
      have hd : N - acc.length = (N - (acc.length + 1)) + 1 := by omega
      simp only [List.length_append, List.length_cons, List.length_nil]
      rw [hd, Nat.succ_min_succ, Nat.succ_sub_succ]
      simp [List.replicate_succ]

/-- Claim C3 (amended): for every client not in the whitelist,
`checkRateLimit` defers to the client's sliding-window limiter (created on
first use) and stores the updated limiter; each `Allow` call drops the
recorded instants at or before `now − window` (not merely those strictly
older than the cutoff), admits and records the instant when the remaining
count is below the threshold, and denies without recording otherwise;
consequently, starting fresh, of `N + 1` requests within a rolling 60-unit
window the first `N` are accepted and the `N + 1`-st is rejected, where `N`
is the threshold. -/
theorem rateLimiter_slidingWindow_amended :
    (∀ (cfg : SecurityConfig) (st : SecurityState) (c : String) (now : Int),
      (alookup st.whitelist c).getD false = false →
      checkRateLimit cfg st c now
        = ((((alookup st.rateLimit c).getD
              ⟨[], cfg.maxRequestsPerMinute, 60⟩).Allow now).1,
           { st with
              rateLimit :=
                aset st.rateLimit c
                  (((alookup st.rateLimit c).getD
                    ⟨[], cfg.maxRequestsPerMinute, 60⟩).Allow now).2 })) ∧
    (∀ (r : RateLimiter) (now : Int), r.Allow now = allowSpecAmended r now) ∧
    (∀ (N : Nat) (ts : List Int),
      ts.length = N + 1 →
      (∀ t ∈ ts, ∀ t' ∈ ts, t - 60 < t') →
      (runAllow ⟨[], N, 60⟩ ts).2 = List.replicate N true ++ [false]) := by
  refine ⟨?_, ?_, ?_⟩
  · intro cfg st c now h
    simp [checkRateLimit, h]
  · intro r now
    simp only [RateLimiter.Allow, allowSpecAmended]
    by_cases h : r.maxReqs ≤ (r.requests.filter (fun t => now - r.window < t)).length
    · rw [if_pos h, if_neg (by omega)]
    · rw [if_neg h, if_pos (by omega)]
  · intro N ts hlen hwin
    have h := runAllow_results N 60 ts [] (by intro t _ a ha; cases ha) hwin
      (by simp)
    rw [h, hlen]
    simp

/-- Witness for claim C3: with threshold 2, three calls at instants 0, 10, 20
(all within one 60-unit window) produce accept, accept, reject. -/
theorem rateLimiter_slidingWindow_witness :
    (runAllow ⟨[], 2, 60⟩ [0, 10, 20]).2 = List.replicate 2 true ++ [false] :=
  rateLimiter_slidingWindow_amended.2.2 2 [0, 10, 20] rfl (by decide)

/-- Counterexample for claim C3 as stated: at the window boundary the code
drops an instant recorded exactly at `now − window` (the filter keeps only
instants strictly after the cutoff), while the claim's wording ("older than
now minus the window") would keep it; with threshold 1, a recorded instant 0
and a call at instant 60 the code admits but the claim's algorithm denies. -/
theorem rateLimiter_boundary_counterexample :
    (RateLimiter.Allow ⟨[0], 1, 60⟩ 60).1 = true ∧
    (allowSpecClaim ⟨[0], 1, 60⟩ 60).1 = false := by decide

/-- Counterexample to claim C1 as stated: client `"c"` is whitelisted and has
an unexpired blacklist entry (expiry 1000, now 500); its well-formed
`get_status` request is nevertheless rejected with the blacklist kind —
`ValidateRequest` consults the blacklist before the whitelist is ever read,
so whitelisting does not override an active blacklist. -/
theorem whitelist_blacklist_counterexample :
    (alookup (SecurityState.mk [("c", 1000)] [("c", true)] []).whitelist "c").getD false
      = true ∧
    (validateRequest env0 defaultSecurityConfig
        ⟨[("c", 1000)], [("c", true)], []⟩ ⟨"get_status", "c", [], 500⟩ 500).verdict
      = Except.error VErr.clientBlacklisted := by
  exact ⟨by decide, by decide⟩

/-- Claim C1 (amended): a whitelisted client's request is never rejected for
rate limiting, and the rate limiter state is left untouched; but the
whitelist does not bypass the blacklist check — while an unexpired blacklist
entry for the client exists, even a well-formed request is rejected with the
blacklist kind. -/
theorem whitelist_bypasses_rateLimit_only (env : Env) (cfg : SecurityConfig)
    (st : SecurityState) (req : XPCRequest) (now : Int)
    (hw : (alookup st.whitelist req.clientID).getD false = true) :
    (validateRequest env cfg st req now).verdict ≠ Except.error VErr.rateLimitExceeded ∧
    (validateRequest env cfg st req now).state.rateLimit = st.rateLimit ∧
    (∀ expiry : Int, validateBasicRequest req now = none →
      alookup st.blacklist req.clientID = some expiry → now < expiry →
      (validateRequest env cfg st req now).verdict = Except.error VErr.clientBlacklisted) := by
  cases hb : validateBasicRequest req now with
  | some msg =>
    refine ⟨by simp [validateRequest, hb], by simp [validateRequest, hb], ?_⟩
    intro expiry hnone
    cases hnone
  | none =>
    cases hlook : alookup st.blacklist req.clientID with
    | some expiry =>
      by_cases hexp : now < expiry
      · have hisb : isBlacklisted st req.clientID now = (true, st) := by
          simp [isBlacklisted, hlook, hexp]
        refine ⟨by simp [validateRequest, hb, hisb], by simp [validateRequest, hb, hisb], ?_⟩
        intro e hn hl hlt
        simp [validateRequest, hb, hisb]
      · have hisb : isBlacklisted st req.clientID now
            = (false, { st with blacklist := aremove st.blacklist req.clientID }) := by
          simp [isBlacklisted, hlook, hexp]
        have hcrl : checkRateLimit cfg
            { st with blacklist := aremove st.blacklist req.clientID } req.clientID now
            = (true, { st with blacklist := aremove st.blacklist req.clientID }) := by
          simp [checkRateLimit, hw]
        refine ⟨?_, ?_, ?_⟩
        · simp only [validateRequest, hb, hisb, hcrl]
          cases hop : isOperationAllowed cfg req.operation with
          | false => simp
          | true =>
            cases hp : validateParameters env cfg req with
            | some msg => simp
            | none => simp
        · simp only [validateRequest, hb, hisb, hcrl]
          cases hop : isOperationAllowed cfg req.operation with
          | false => simp
          | true =>
            cases hp : validateParameters env cfg req with
            | some msg => simp
            | none => simp
        · intro e hn hl hlt
          injection hl with h2
          subst h2
          exact absurd hlt hexp
    | none =>
      have hisb : isBlacklisted st req.clientID now = (false, st) := by
        simp [isBlacklisted, hlook]
      have hcrl : checkRateLimit cfg st req.clientID now = (true, st) := by
        simp [checkRateLimit, hw]
      refine ⟨?_, ?_, ?_⟩
      · simp only [validateRequest, hb, hisb, hcrl]
        cases hop : isOperationAllowed cfg req.operation with
        | false => simp
        | true =>
          cases hp : validateParameters env cfg req with
          | some msg => simp
          | none => simp
      · simp only [validateRequest, hb, hisb, hcrl]
        cases hop : isOperationAllowed cfg req.operation with
        | false => simp
        | true =>
          cases hp : validateParameters env cfg req with
          | some msg => simp
          | none => simp
      · intro e hn hl hlt
        cases hl

/-- Witness for claim C1: whitelisted client `"w"` with an unexpired blacklist
entry (expiry 2000, now 600) is not rate-limited, touches no limiter state,
and is rejected with the blacklist kind. -/
theorem whitelist_bypasses_rateLimit_only_witness :
    (validateRequest env0 defaultSecurityConfig
        ⟨[("w", 2000)], [("w", true)], []⟩ ⟨"get_status", "w", [], 600⟩ 600).verdict
      ≠ Except.error VErr.rateLimitExceeded ∧
    (validateRequest env0 defaultSecurityConfig
        ⟨[("w", 2000)], [("w", true)], []⟩ ⟨"get_status", "w", [], 600⟩ 600).verdict
      = Except.error VErr.clientBlacklisted := by
  have h := whitelist_bypasses_rateLimit_only env0 defaultSecurityConfig
    ⟨[("w", 2000)], [("w", true)], []⟩ ⟨"get_status", "w", [], 600⟩ 600 (by decide)
  exact ⟨h.1, h.2.2 2000 (by decide) (by decide) (by decide)⟩

/-- Claim C4: a rate-limit denial adds the client to the blacklist with
expiry exactly `now + BlacklistDuration`; while an unexpired entry exists,
any well-formed request from that client is rejected with the blacklist kind
and its own rate-limit state is never touched; once the entry has expired,
the blacklist check lazily evicts it and lets the request through. -/
theorem rateLimit_escalates_to_blacklist :
    (∀ (env : Env) (cfg : SecurityConfig) (st : SecurityState) (req : XPCRequest)
        (now : Int),
      (validateRequest env cfg st req now).verdict = Except.error VErr.rateLimitExceeded →
      alookup (validateRequest env cfg st req now).state.blacklist req.clientID
        = some (now + cfg.blacklistDuration)) ∧
    (∀ (env : Env) (cfg : SecurityConfig) (st : SecurityState) (req : XPCRequest)
        (now expiry : Int),
      validateBasicRequest req now = none →
      alookup st.blacklist req.clientID = some expiry →
      now < expiry →
      (validateRequest env cfg st req now).verdict = Except.error VErr.clientBlacklisted ∧
      (validateRequest env cfg st req now).state.rateLimit = st.rateLimit) ∧
    (∀ (st : SecurityState) (c : String) (now expiry : Int),
      alookup st.blacklist c = some expiry →
      expiry ≤ now →
      (isBlacklisted st c now).1 = false ∧
      alookup (isBlacklisted st c now).2.blacklist c = none) := by
  refine ⟨?_, ?_, ?_⟩
  · intro env cfg st req now hver
    cases hb : validateBasicRequest req now with
    | some msg => simp [validateRequest, hb] at hver
    | none =>
      cases hisb : isBlacklisted st req.clientID now with
      | mk b st2 =>
        cases b with
        | true => simp [validateRequest, hb, hisb] at hver
        | false =>
          cases hcrl : checkRateLimit cfg st2 req.clientID now with
          | mk ok st3 =>
            cases ok with
            | false =>
              simp only [validateRequest, hb, hisb, hcrl]
              exact alookup_aset_self st3.blacklist req.clientID _
            | true =>
              cases hop : isOperationAllowed cfg req.operation with
              | false => simp [validateRequest, hb, hisb, hcrl, hop] at hver
              | true =>
                cases hp : validateParameters env cfg req with
                | some msg => simp [validateRequest, hb, hisb, hcrl, hop, hp] at hver
                | none => simp [validateRequest, hb, hisb, hcrl, hop, hp] at hver
  · intro env cfg st req now expiry hb hlook hexp
    have hisb : isBlacklisted st req.clientID now = (true, st) := by
      simp [isBlacklisted, hlook, hexp]
    exact ⟨by simp [validateRequest, hb, hisb], by simp [validateRequest, hb, hisb]⟩
  · intro st c now expiry hlook hexp
    have hisb : isBlacklisted st c now
        = (false, { st with blacklist := aremove st.blacklist c }) := by
      simp [isBlacklisted, hlook]
      omega
    exact ⟨by simp [hisb], by simp [hisb, alookup_aremove_self]⟩

/-- Witness for claim C4: with the threshold set to 0 every request is
rate-limited, so client `"c"` at instant 500 is blacklisted until
`500 + 900 = 1400`; a well-formed request at instant 700 is rejected with the
blacklist kind without touching the limiter; at instant 1400 the entry is
evicted by the blacklist check. -/
theorem rateLimit_escalates_to_blacklist_witness :
    alookup (validateRequest env0
        { defaultSecurityConfig with maxRequestsPerMinute := 0 }
        ⟨[], [], []⟩ ⟨"get_status", "c", [], 500⟩ 500).state.blacklist "c"
      = some (500 + (900 : Int)) ∧
    (validateRequest env0 defaultSecurityConfig
        ⟨[("c", 1400)], [], []⟩ ⟨"get_status", "c", [], 700⟩ 700).verdict
      = Except.error VErr.clientBlacklisted ∧
    (isBlacklisted ⟨[("c", 1400)], [], []⟩ "c" 1400).1 = false ∧
    alookup (isBlacklisted ⟨[("c", 1400)], [], []⟩ "c" 1400).2.blacklist "c" = none := by
  refine ⟨?_, ?_, ?_, ?_⟩
  · exact rateLimit_escalates_to_blacklist.1 env0
      { defaultSecurityConfig with maxRequestsPerMinute := 0 }
      ⟨[], [], []⟩ ⟨"get_status", "c", [], 500⟩ 500 (by decide)
  · exact (rateLimit_escalates_to_blacklist.2.1 env0 defaultSecurityConfig
      ⟨[("c", 1400)], [], []⟩ ⟨"get_status", "c", [], 700⟩ 700 1400
      (by decide) (by decide) (by decide)).1
  · exact (rateLimit_escalates_to_blacklist.2.2 ⟨[("c", 1400)], [], []⟩ "c" 1400 1400
      (by decide) (by decide)).1
  · exact (rateLimit_escalates_to_blacklist.2.2 ⟨[("c", 1400)], [], []⟩ "c" 1400 1400
      (by decide) (by decide)).2

theorem validateRequest_error_audit (env : Env) (cfg : SecurityConfig)
    (st : SecurityState) (req : XPCRequest) (now : Int) (e : VErr)
    (hver : (validateRequest env cfg st req now).verdict = Except.error e) :
    (validateRequest env cfg st req now).violations.length = 1 ∧
    ∃ m, (validateRequest env cfg st req now).audit
      = [AuditEvent.failedOp req.operation req.clientID m] := by
  cases hb : validateBasicRequest req now with
  | some msg =>
    exact ⟨by simp [validateRequest, hb], "basic_validation: " ++ msg,
      by simp [validateRequest, hb, logViolation]⟩
  | none =>
    cases hisb : isBlacklisted st req.clientID now with
    | mk b st2 =>
      cases b with
      | true =>
        exact ⟨by simp [validateRequest, hb, hisb], "blacklisted: Client is blacklisted",
          by simp [validateRequest, hb, hisb, logViolation]⟩
      | false =>
        cases hcrl : checkRateLimit cfg st2 req.clientID now with
        | mk ok st3 =>
          cases ok with
          | false =>
            exact ⟨by simp [validateRequest, hb, hisb, hcrl],
              "rate_limit: Rate limit exceeded",
              by simp [validateRequest, hb, hisb, hcrl, logViolation]⟩
          | true =>
            cases hop : isOperationAllowed cfg req.operation with
            | false =>
              exact ⟨by simp [validateRequest, hb, hisb, hcrl, hop],
                "unauthorized_operation: Operation not allowed",
                by simp [validateRequest, hb, hisb, hcrl, hop, logViolation]⟩
            | true =>
              cases hp : validateParameters env cfg req with
              | some msg =>
                exact ⟨by simp [validateRequest, hb, hisb, hcrl, hop, hp],
                  "parameter_validation: " ++ msg,
                  by simp [validateRequest, hb, hisb, hcrl, hop, hp, logViolation]⟩
              | none => simp [validateRequest, hb, hisb, hcrl, hop, hp] at hver

theorem validateRequest_ok_silent (env : Env) (cfg : SecurityConfig)
    (st : SecurityState) (req : XPCRequest) (now : Int)
    (hver : (validateRequest env cfg st req now).verdict = Except.ok ()) :
    (validateRequest env cfg st req now).violations = [] ∧
    (validateRequest env cfg st req now).audit = [] := by
  cases hb : validateBasicRequest req now with
  | some msg => simp [validateRequest, hb] at hver
  | none =>
    cases hisb : isBlacklisted st req.clientID now with
    | mk b st2 =>
      cases b with
      | true => simp [validateRequest, hb, hisb] at hver
      | false =>
        cases hcrl : checkRateLimit cfg st2 req.clientID now with
        | mk ok st3 =>
          cases ok with
          | false => simp [validateRequest, hb, hisb, hcrl] at hver
          | true =>
            cases hop : isOperationAllowed cfg req.operation with
            | false => simp [validateRequest, hb, hisb, hcrl, hop] at hver
            | true =>
              cases hp : validateParameters env cfg req with
              | some msg => simp [validateRequest, hb, hisb, hcrl, hop, hp] at hver
              | none =>
                exact ⟨by simp [validateRequest, hb, hisb, hcrl, hop, hp],
                  by simp [validateRequest, hb, hisb, hcrl, hop, hp]⟩

/-- Counterexample to claim C5 as stated: for a rejected request (timestamp
zero, so basic validation fails) the pipeline writes one `SecurityViolation`
but TWO failed-operation audit records before the response is returned — one
from `logSecurityViolation` inside `ValidateRequest` and a second one from
`handleXPCRequest`'s rejection branch. -/
theorem audit_single_record_counterexample :
    (handleXPCRequest env0 defaultSecurityConfig (fun _ => ⟨true, ""⟩)
        ⟨[], [], []⟩ ⟨"get_status", "c5", [], 0⟩ 1000).violations.length = 1 ∧
    ((handleXPCRequest env0 defaultSecurityConfig (fun _ => ⟨true, ""⟩)
        ⟨[], [], []⟩ ⟨"get_status", "c5", [], 0⟩ 1000).audit.filter
        AuditEvent.isFailed).length = 2 := by
  exact ⟨by decide, by decide⟩

/-- Claim C5 (amended): for every request that validation rejects, exactly one
`SecurityViolation` record and exactly two failed-operation audit records
(one written by the validator's `logSecurityViolation`, one by the
dispatcher) and no success record are written before the response is
returned; for every accepted request, validation itself writes nothing, and
when the dispatched operation succeeds the caller appends exactly one
success audit record after it completes. -/
theorem audit_records_per_request :
    (∀ (env : Env) (cfg : SecurityConfig) (dispatch : XPCRequest → XPCResponse)
        (st : SecurityState) (req : XPCRequest) (now : Int) (e : VErr),
      (validateRequest env cfg st req now).verdict = Except.error e →
      (handleXPCRequest env cfg dispatch st req now).violations.length = 1 ∧
      ((handleXPCRequest env cfg dispatch st req now).audit.filter
        AuditEvent.isFailed).length = 2 ∧
      ((handleXPCRequest env cfg dispatch st req now).audit.filter
        AuditEvent.isSuccess).length = 0) ∧
    (∀ (env : Env) (cfg : SecurityConfig) (dispatch : XPCRequest → XPCResponse)
        (st : SecurityState) (req : XPCRequest) (now : Int),
      (validateRequest env cfg st req now).verdict = Except.ok () →
      (validateRequest env cfg st req now).violations = [] ∧
      (validateRequest env cfg st req now).audit = [] ∧
      ((dispatch req).success = true →
        (handleXPCRequest env cfg dispatch st req now).audit
          = [AuditEvent.successOp req.operation req.clientID])) := by
  constructor
  · intro env cfg dispatch st req now e hver
    obtain ⟨hlen, m, haud⟩ := validateRequest_error_audit env cfg st req now e hver
    refine ⟨?_, ?_, ?_⟩
    · simp [handleXPCRequest, hver, hlen]
    · simp [handleXPCRequest, hver, haud, List.filter_append, AuditEvent.isFailed]
    · simp [handleXPCRequest, hver, haud, List.filter_append, AuditEvent.isSuccess]
  · intro env cfg dispatch st req now hver
    obtain ⟨hv, ha⟩ := validateRequest_ok_silent env cfg st req now hver
    refine ⟨hv, ha, ?_⟩
    intro hsucc
    simp [handleXPCRequest, hver, ha, hsucc]

/-- Witness for claim C5: a request with timestamp zero is rejected (one
violation, two failed audit records, no success record); a well-formed
`get_status` request is accepted silently, and a successful dispatch appends
exactly one success record. -/
theorem audit_records_per_request_witness :
    ((handleXPCRequest env0 defaultSecurityConfig (fun _ => ⟨false, "boom"⟩)
        ⟨[], [], []⟩ ⟨"get_status", "c6", [], 0⟩ 1000).audit.filter
        AuditEvent.isFailed).length = 2 ∧
    (validateRequest env0 defaultSecurityConfig
        ⟨[], [], []⟩ ⟨"get_status", "c7", [], 950⟩ 1000).audit = [] ∧
    (handleXPCRequest env0 defaultSecurityConfig (fun _ => ⟨true, ""⟩)
        ⟨[], [], []⟩ ⟨"get_status", "c7", [], 950⟩ 1000).audit
      = [AuditEvent.successOp "get_status" "c7"] := by
  refine ⟨?_, ?_, ?_⟩
  · exact (audit_records_per_request.1 env0 defaultSecurityConfig
      (fun _ => ⟨false, "boom"⟩) ⟨[], [], []⟩ ⟨"get_status", "c6", [], 0⟩ 1000
      (VErr.basicValidation "timestamp is zero") (by decide)).2.1
  · exact (audit_records_per_request.2 env0 defaultSecurityConfig
      (fun _ => ⟨true, ""⟩) ⟨[], [], []⟩ ⟨"get_status", "c7", [], 950⟩ 1000
      (by decide)).2.1
  · exact (audit_records_per_request.2 env0 defaultSecurityConfig
      (fun _ => ⟨true, ""⟩) ⟨[], [], []⟩ ⟨"get_status", "c7", [], 950⟩ 1000
      (by decide)).2.2 (by decide)

/-- Claim C7: every hostname that (case-insensitively) contains `localhost`,
`127.0.0.1` or `0.0.0.0`, or contains the literal pattern `*.local`, is
rejected by `validateHostname` as dangerous whenever it satisfies the
253-byte length bound and the label-dot-label grammar. -/
theorem dangerous_hostname_rejected (h : String)
    (hlen : strBytes h ≤ 253)
    (hgram : hostnameRegexMatches h = true)
    (hdang : containsCI h "localhost" = true ∨ containsCI h "127.0.0.1" = true ∨
             containsCI h "0.0.0.0" = true ∨ containsCI h "*.local" = true) :
    validateHostname h = some "dangerous hostname not allowed" := by
  have hd : isDangerousHostname h = true := by
    unfold isDangerousHostname dangerousPatterns
    simp only [List.any_cons, List.any_nil, Bool.or_eq_true]
    rcases hdang with h1 | h1 | h1 | h1 <;> simp [h1]
  unfold validateHostname
  rw [if_neg (by omega : ¬ 253 < strBytes h)]
  rw [if_neg (by simp [hgram] : ¬ hostnameRegexMatches h = false)]
  rw [if_pos hd]

/-- Witness for claim C7: `"a.LocalHost.com"` satisfies the grammar and the
length bound yet contains `localhost` case-insensitively, so it is rejected
as dangerous. -/
theorem dangerous_hostname_rejected_witness :
    validateHostname "a.LocalHost.com" = some "dangerous hostname not allowed" :=
  dangerous_hostname_rejected "a.LocalHost.com" (by decide) (by decide)
    (Or.inl (by decide))

/-- Claim C2: when a backup's recorded checksum is non-empty and the backup
file's bytes no longer hash to it, `RestoreBackup` returns the corruption
error and leaves the filesystem — in particular the target path — completely
unchanged: the checksum comparison runs before any write. -/
theorem restore_corrupted_no_write (benv : BackupEnv) (idx : BackupIndex)
    (fs : FS) (backupID targetPath : String) (info : BackupInfo)
    (bytes : List Nat)
    (h1 : alookup idx backupID = some info)
    (h2 : alookup fs info.path = some bytes)
    (h3 : info.checksum ≠ "")
    (h4 : benv.hash bytes ≠ info.checksum) :
    restoreBackup benv idx fs backupID targetPath
      = ⟨.error (.backupCorrupted info.checksum (benv.hash bytes)), fs⟩ := by
  simp [restoreBackup, h1, h2, h3, h4]

/-- Witness for claim C2: the recorded checksum is `goodsum` but the file now
hashes to `badsum`; restore fails with the corruption error and the
filesystem is unchanged. -/
theorem restore_corrupted_no_write_witness :
    restoreBackup ⟨fun _ => "badsum", fun _ => "h", "/bk", 10⟩ [("b1", corruptInfo)]
        [("/bk/b1.backup", [7])] "b1" "/etc/hosts"
      = ⟨.error (.backupCorrupted "goodsum" "badsum"), [("/bk/b1.backup", [7])]⟩ :=
  restore_corrupted_no_write _ _ _ _ _ corruptInfo [7]
    (by decide) (by decide) (by decide) (by decide)

/-- Claim C6 (code bug evidence): a well-formed `restore_hosts` request that
supplies `backup_id` without `backup_path` is REJECTED by parameter
sanitization (`validateRestoreHostsParams` unconditionally requires
`backup_path`), even though the dispatch handler `handleRestoreHosts`
accepts exactly such a request and restores the backup — the sanitizer
contradicts the handler and the repository's own API design, which marks
`backup_id` as the required restore parameter. -/
theorem restore_sanitizer_requires_backup_path :
    validateRestoreHostsParams env0
        [("backup_id", PValue.str "hosts-20240101-120000-abcd1234")]
      = some "missing backup_path parameter" ∧
    (handleRestoreHosts ⟨fun _ => "ck", fun _ => "h", "/bk", 10⟩
        [("hosts-20240101-120000-abcd1234", c6Info)]
        [("/bk/hosts-20240101-120000-abcd1234.backup", [1])]
        [("backup_id", PValue.str "hosts-20240101-120000-abcd1234")]).1.success
      = true := by
  exact ⟨by decide, by decide⟩

/-- Claim C9: if a `CreateBackup` call finds the identifier generated from
`(sourcePath, name)` and the same timestamp second already in the index
(as after a first successful call within the same second), it returns the
already-indexed `BackupInfo` unchanged, creates no second backup file, and
leaves the index unchanged — regardless of the other arguments. -/
theorem create_idempotent_same_second (benv : BackupEnv) (idx : BackupIndex)
    (fs : FS) (idx1 : BackupIndex) (fs1 : FS)
    (sourcePath name d1 d2 : String) (tg1 tg2 : List String) (a1 a2 : Bool)
    (nowStr : String) (now1 now2 : Int) (info : BackupInfo) (bytes1 : List Nat)
    (_h1 : createBackup benv idx fs sourcePath name d1 tg1 a1 nowStr now1
      = ⟨.ok info, idx1, fs1⟩)
    (h2 : alookup idx1 (generateBackupID benv sourcePath name nowStr) = some info)
    (h3 : alookup fs1 sourcePath = some bytes1) :
    createBackup benv idx1 fs1 sourcePath name d2 tg2 a2 nowStr now2
      = ⟨.ok info, idx1, fs1⟩ := by
  simp [createBackup, h3, h2]

/-- Witness for claim C9: after a first create of `/etc/hosts` under name
`"n"` in second `T0`, a second call in the same second (with different
description, tags, automatic flag and clock reading) returns the same record
and changes nothing. -/
theorem create_idempotent_same_second_witness :
    createBackup benvW [("n-T0-hh", infoW)]
        [("/etc/hosts", [1, 2]), ("/bk/n-T0-hh.backup", [1, 2])]
        "/etc/hosts" "n" "other" [] false "T0" 200
      = ⟨.ok infoW, [("n-T0-hh", infoW)],
         [("/etc/hosts", [1, 2]), ("/bk/n-T0-hh.backup", [1, 2])]⟩ :=
  create_idempotent_same_second benvW [] [("/etc/hosts", [1, 2])]
    [("n-T0-hh", infoW)] [("/etc/hosts", [1, 2]), ("/bk/n-T0-hh.backup", [1, 2])]
    "/etc/hosts" "n" "d" "other" ["t"] [] true false "T0" 100 200 infoW [1, 2]
    (by decide) (by decide) (by decide)

/-- Claim C10: `restore_hosts` parameter sanitization never inspects
`target_path` — any two parameter maps that agree on `backup_path` receive
the same verdict — and a non-empty `target_path` value (including a relative
path with a `..` traversal segment) is forwarded unchanged to
`RestoreBackup`, which writes the backup bytes to exactly that path. -/
theorem restore_target_path_not_inspected :
    (∀ (env : Env) (p1 p2 : List (String × PValue)),
      alookup p1 "backup_path" = alookup p2 "backup_path" →
      validateRestoreHostsParams env p1 = validateRestoreHostsParams env p2) ∧
    (∀ (benv : BackupEnv) (idx : BackupIndex) (fs : FS)
        (params : List (String × PValue)) (bid t : String) (info : BackupInfo)
        (bytes : List Nat),
      (alookup params "backup_id").bind asString = some bid →
      (alookup params "target_path").bind asString = some t →
      t ≠ "" →
      alookup idx bid = some info →
      alookup fs info.path = some bytes →
      (info.checksum = "" ∨ benv.hash bytes = info.checksum) →
      handleRestoreHosts benv idx fs params = (⟨true, ""⟩, aset fs t bytes) ∧
      alookup (handleRestoreHosts benv idx fs params).2 t = some bytes) := by
  constructor
  · intro env p1 p2 h
    simp only [validateRestoreHostsParams, h]
  · intro benv idx fs params bid t info bytes h1 h2 h3 h4 h5 h6
    have hcond : ¬ (info.checksum ≠ "" ∧ benv.hash bytes ≠ info.checksum) := by
      rcases h6 with h6 | h6 <;> simp [h6]
    have hr : restoreBackup benv idx fs bid t = ⟨.ok (), aset fs t bytes⟩ := by
      simp only [restoreBackup, h4, h5, if_neg hcond, if_neg h3]
    have hh : handleRestoreHosts benv idx fs params = (⟨true, ""⟩, aset fs t bytes) := by
      simp [handleRestoreHosts, handleRestoreWith, h1, h2, h3, hr]
    exact ⟨hh, by rw [hh]; exact alookup_aset_self fs t bytes⟩

/-- Witness for claim C10: two `restore_hosts` parameter maps differing only
in `target_path` get the same sanitization verdict, and a request whose
`target_path` is the relative traversal `"../evil"` is forwarded verbatim —
the backup bytes are written at `"../evil"`. -/
theorem restore_target_path_not_inspected_witness :
    validateRestoreHostsParams env0
        [("backup_path", PValue.str "/b"), ("target_path", PValue.str "../evil")]
      = validateRestoreHostsParams env0
        [("backup_path", PValue.str "/b"), ("target_path", PValue.str "/good")] ∧
    alookup (handleRestoreHosts benvW [("b3", c10Info)] [("/bk/b3.backup", [9])]
        [("backup_id", PValue.str "b3"), ("target_path", PValue.str "../evil")]).2
        "../evil"
      = some [9] := by
  constructor
  · exact restore_target_path_not_inspected.1 env0
      [("backup_path", PValue.str "/b"), ("target_path", PValue.str "../evil")]
      [("backup_path", PValue.str "/b"), ("target_path", PValue.str "/good")]
      rfl
  · exact (restore_target_path_not_inspected.2 benvW [("b3", c10Info)]
      [("/bk/b3.backup", [9])]
      [("backup_id", PValue.str "b3"), ("target_path", PValue.str "../evil")]
      "b3" "../evil" c10Info [9]
      (by decide) (by decide) (by decide) (by decide) (by decide)
      (Or.inl (by decide))).2

theorem alookup_foldl_aremove (l : List (String × BackupInfo)) (fs : FS)
    (k : String) (h : ∀ e ∈ l, e.2.path ≠ k) :
    alookup (l.foldl (fun f e => aremove f e.2.path) fs) k = alookup fs k := by
  induction l generalizing fs with
  | nil => rfl
  | cons e rest ih =>
    rw [List.foldl_cons, ih _ (fun x hx => h x (by simp [hx]))]
    exact alookup_aremove_ne fs e.2.path k (h e (by simp))

theorem orderedInsert_append_of_not (r : BackupInfo → BackupInfo → Prop)
    [DecidableRel r] (a : BackupInfo) (l : List BackupInfo)
    (h : ∀ b ∈ l, ¬ r a b) :
    l.orderedInsert r a = l ++ [a] := by
  induction l with
  | nil => rfl
  | cons b t ih =>
    simp only [List.orderedInsert]
    rw [if_neg (h b (by simp)), ih (fun x hx => h x (by simp [hx]))]
    rfl

theorem sortDesc_eq_reverse (l : List BackupInfo)
    (h : l.Pairwise (fun a b => a.createdAt < b.createdAt)) :
    l.insertionSort (fun a b => b.createdAt ≤ a.createdAt) = l.reverse := by
  induction l with
  | nil => rfl
  | cons a t ih =>
    have hp := List.pairwise_cons.mp h
    simp only [List.insertionSort]
    rw [ih hp.2, List.reverse_cons]
    apply orderedInsert_append_of_not
    intro b hb
    have hab := hp.1 b (List.mem_reverse.mp hb)
    show ¬ (b.createdAt ≤ a.createdAt)
    omega

theorem runCreates_retention (benv : BackupEnv) (sourcePath : String)
    (bytes0 : List Nat) :
    ∀ (rest pre : List CreateItem) (fs : FS),
      List.Pairwise (fun a b => a.now < b.now) (pre ++ rest) →
      List.Pairwise
        (fun a b => itemId benv sourcePath a ≠ itemId benv sourcePath b)
        (pre ++ rest) →
      (∀ it ∈ pre ++ rest, sourcePath ≠ itemPath benv sourcePath it) →
      alookup fs sourcePath = some bytes0 →
      (runCreates benv sourcePath
        (survivorsIndex benv sourcePath bytes0 pre, fs) rest).1
        = survivorsIndex benv sourcePath bytes0 (pre ++ rest) := by
  intro rest
  induction rest with
  | nil =>
    intro pre fs _ _ _ _
    simp [runCreates]
  | cons it rest ih =>
    intro pre fs ht hid hsp hfs
    have htS := List.pairwise_append.mp ht
    have hidS := List.pairwise_append.mp hid
    have hfresh : alookup (survivorsIndex benv sourcePath bytes0 pre)
        (generateBackupID benv sourcePath it.name it.nowStr) = none := by
      apply alookup_eq_none_of_forall
      intro p hp
      obtain ⟨a, ha, rfl⟩ := List.mem_map.mp hp
      have hmem : a ∈ pre := List.drop_subset _ _ ha
      exact hidS.2.2 a hmem it (by simp)
    have hcreate : createBackup benv (survivorsIndex benv sourcePath bytes0 pre)
        fs sourcePath it.name it.description it.tags it.automatic it.nowStr it.now
        = ⟨.ok (itemInfo benv sourcePath bytes0 it),
           (cleanupOldBackups benv
             (survivorsIndex benv sourcePath bytes0 pre
               ++ [itemEntry benv sourcePath bytes0 it])
             (aset fs (itemPath benv sourcePath it) bytes0)).1,
           (cleanupOldBackups benv
             (survivorsIndex benv sourcePath bytes0 pre
               ++ [itemEntry benv sourcePath bytes0 it])
             (aset fs (itemPath benv sourcePath it) bytes0)).2⟩ := by
      simp only [createBackup, hfs, hfresh, itemEntry, itemInfo, itemPath, itemId,
        backupFilePath]
    have hSlen : (survivorsIndex benv sourcePath bytes0 pre).length
        = pre.length - (pre.length - benv.maxBackups) := by
      simp [survivorsIndex]
    have hsorted : (survivorsIndex benv sourcePath bytes0 pre
        ++ [itemEntry benv sourcePath bytes0 it]).Pairwise
        (fun a b => a.2.createdAt ≤ b.2.createdAt) := by
      apply List.pairwise_append.mpr
      refine ⟨?_, by simp, ?_⟩
      · apply List.pairwise_map.mpr
        have hdrop : (pre.drop (pre.length - benv.maxBackups)).Pairwise
            (fun a b => a.now < b.now) :=
          htS.1.sublist (List.drop_sublist _ _)
        exact hdrop.imp (fun hab => le_of_lt hab)
      · intro p hp q hq
        obtain ⟨a, ha, rfl⟩ := List.mem_map.mp hp
        have hq2 : q = itemEntry benv sourcePath bytes0 it := by simpa using hq
        subst hq2
        exact le_of_lt (htS.2.2 a (List.drop_subset _ _ ha) it (by simp))
    have hkept : (cleanupOldBackups benv
        (survivorsIndex benv sourcePath bytes0 pre
          ++ [itemEntry benv sourcePath bytes0 it])
        (aset fs (itemPath benv sourcePath it) bytes0)).1
        = survivorsIndex benv sourcePath bytes0 (pre ++ [it]) := by
      by_cases hm : (survivorsIndex benv sourcePath bytes0 pre
          ++ [itemEntry benv sourcePath bytes0 it]).length ≤ benv.maxBackups
      · simp only [cleanupOldBackups, if_pos hm]
        have hlt : pre.length < benv.maxBackups := by
          simp only [List.length_append, List.length_cons, List.length_nil,
            hSlen] at hm
          omega
        have h0 : pre.length - benv.maxBackups = 0 := by omega
        have h1 : pre.length + 1 - benv.maxBackups = 0 := by omega
        simp [survivorsIndex, h0, h1]
      · simp only [cleanupOldBackups, if_neg hm]
        rw [List.Sorted.insertionSort_eq hsorted]
        have hge : benv.maxBackups ≤ pre.length := by
          simp only [List.length_append, List.length_cons, List.length_nil,
            hSlen] at hm
          omega
        have hlen1 : (survivorsIndex benv sourcePath bytes0 pre
            ++ [itemEntry benv sourcePath bytes0 it]).length
            = benv.maxBackups + 1 := by
          simp only [List.length_append, List.length_cons, List.length_nil, hSlen]
          omega
        rw [hlen1]
        have hdel : benv.maxBackups + 1 - benv.maxBackups = 1 := by omega
        rw [hdel]
        by_cases hm0 : benv.maxBackups = 0
        · -- everything is evicted
          have hS0 : survivorsIndex benv sourcePath bytes0 pre = [] := by
            have : (survivorsIndex benv sourcePath bytes0 pre).length = 0 := by
              rw [hSlen]; omega
            exact List.length_eq_zero.mp this
          have hS1 : survivorsIndex benv sourcePath bytes0 (pre ++ [it]) = [] := by
            have : (survivorsIndex benv sourcePath bytes0 (pre ++ [it])).length
                = 0 := by
              simp only [survivorsIndex, List.length_map, List.length_drop,
                List.length_append, List.length_cons, List.length_nil]
              omega
            exact List.length_eq_zero.mp this
          rw [hS0, hS1]
          rfl
        · -- exactly the single oldest entry is evicted
          have h1le : 1 ≤ (survivorsIndex benv sourcePath bytes0 pre).length := by
            rw [hSlen]; omega
          rw [List.drop_append_of_le_length h1le]
          have hS1 : survivorsIndex benv sourcePath bytes0 (pre ++ [it])
              = (pre.drop (pre.length + 1 - benv.maxBackups)).map
                  (itemEntry benv sourcePath bytes0)
                ++ [itemEntry benv sourcePath bytes0 it] := by
            have hle : pre.length + 1 - benv.maxBackups ≤ pre.length := by omega
            simp only [survivorsIndex, List.length_append, List.length_cons,
              List.length_nil]
            rw [List.drop_append_of_le_length hle, List.map_append]
            rfl
          rw [hS1]
          have hSdrop : (survivorsIndex benv sourcePath bytes0 pre).drop 1
              = (pre.drop (pre.length + 1 - benv.maxBackups)).map
                  (itemEntry benv sourcePath bytes0) := by
            simp only [survivorsIndex]
            rw [← List.map_drop, List.drop_drop]
            have he : pre.length - benv.maxBackups + 1
                = pre.length + 1 - benv.maxBackups := by omega
            rw [he]
          rw [hSdrop]
    have hfs2 : alookup (cleanupOldBackups benv
        (survivorsIndex benv sourcePath bytes0 pre
          ++ [itemEntry benv sourcePath bytes0 it])
        (aset fs (itemPath benv sourcePath it) bytes0)).2 sourcePath
        = some bytes0 := by
      have hfs1 : alookup (aset fs (itemPath benv sourcePath it) bytes0)
          sourcePath = some bytes0 := by
        rw [alookup_aset_ne _ _ _ _ (Ne.symm (hsp it (by simp)))]
        exact hfs
      by_cases hm : (survivorsIndex benv sourcePath bytes0 pre
          ++ [itemEntry benv sourcePath bytes0 it]).length ≤ benv.maxBackups
      · simp only [cleanupOldBackups, if_pos hm]
        exact hfs1
      · simp only [cleanupOldBackups, if_neg hm]
        rw [List.Sorted.insertionSort_eq hsorted]
        rw [alookup_foldl_aremove _ _ _ ?_]
        · exact hfs1
        · intro x hx
          have hx2 : x ∈ survivorsIndex benv sourcePath bytes0 pre
              ++ [itemEntry benv sourcePath bytes0 it] := List.take_subset _ _ hx
          rcases List.mem_append.mp hx2 with hxa | hxa
          · obtain ⟨a, ha, rfl⟩ := List.mem_map.mp hxa
            exact Ne.symm (hsp a (by simp [List.drop_subset _ _ ha]))
          · have hx3 : x = itemEntry benv sourcePath bytes0 it := by simpa using hxa
            subst hx3
            exact Ne.symm (hsp it (by simp))
    have hassoc : (pre ++ [it]) ++ rest = pre ++ it :: rest := by simp
    have hrec := ih (pre ++ [it])
      (cleanupOldBackups benv
        (survivorsIndex benv sourcePath bytes0 pre
          ++ [itemEntry benv sourcePath bytes0 it])
        (aset fs (itemPath benv sourcePath it) bytes0)).2
      (by rw [hassoc]; exact ht) (by rw [hassoc]; exact hid)
      (by rw [hassoc]; exact hsp) hfs2
    rw [hassoc] at hrec
    simp only [runCreates, hcreate]
    rw [← hrec, hkept]

/-- Claim C8: starting from an empty index, after `k > MaxBackups` creates
with strictly increasing creation instants, pairwise distinct identifiers
and a stable source file, the index holds exactly the entries of the
`MaxBackups` most recent creates — the oldest-by-`created_at` entries are
deleted with no exemption for name, description, tags or the automatic flag
(the theorem quantifies over all of them) — and `ListBackups` returns
exactly those `MaxBackups` records, most recent first. -/
theorem backup_retention (benv : BackupEnv) (sourcePath : String)
    (bytes0 : List Nat) (items : List CreateItem) (fs0 : FS)
    (ht : List.Pairwise (fun a b => a.now < b.now) items)
    (hid : List.Pairwise
      (fun a b => itemId benv sourcePath a ≠ itemId benv sourcePath b) items)
    (hsp : ∀ it ∈ items, sourcePath ≠ itemPath benv sourcePath it)
    (hfs : alookup fs0 sourcePath = some bytes0)
    (hk : benv.maxBackups < items.length) :
    (runCreates benv sourcePath ([], fs0) items).1
      = (items.drop (items.length - benv.maxBackups)).map
        (itemEntry benv sourcePath bytes0) ∧
    (runCreates benv sourcePath ([], fs0) items).1.length = benv.maxBackups ∧
    listBackups (runCreates benv sourcePath ([], fs0) items).1
      = ((items.drop (items.length - benv.maxBackups)).map
        (itemInfo benv sourcePath bytes0)).reverse := by
  have hempty : survivorsIndex benv sourcePath bytes0 [] = [] := by
    simp [survivorsIndex]
  have hrun := runCreates_retention benv sourcePath bytes0 items [] fs0
    (by simpa using ht) (by simpa using hid) (by simpa using hsp) hfs
  rw [hempty] at hrun
  simp only [List.nil_append] at hrun
  have hidx : (runCreates benv sourcePath ([], fs0) items).1
      = (items.drop (items.length - benv.maxBackups)).map
        (itemEntry benv sourcePath bytes0) := by
    rw [hrun]; rfl
  refine ⟨hidx, ?_, ?_⟩
  · rw [hidx]
    simp only [List.length_map, List.length_drop]
    omega
  · rw [hidx]
    unfold listBackups
    rw [List.map_map]
    have hmm : ((items.drop (items.length - benv.maxBackups)).map
        (itemEntry benv sourcePath bytes0)).map (fun p => p.2)
        = (items.drop (items.length - benv.maxBackups)).map
          (itemInfo benv sourcePath bytes0) := by
      rw [List.map_map]; rfl
    rw [List.map_map] at hmm
    rw [hmm]
    apply sortDesc_eq_reverse
    apply List.pairwise_map.mpr
    have hdrop : (items.drop (items.length - benv.maxBackups)).Pairwise
        (fun a b => a.now < b.now) := ht.sublist (List.drop_sublist _ _)
    exact hdrop.imp (fun hab => hab)

theorem backup_retention_witness :
    (runCreates ⟨fun _ => "ck", fun _ => "hh", "/bk", 2⟩ "/s"
        ([], [("/s", [7])])
        [⟨"a", "", [], true, "T1", 1⟩, ⟨"b", "", [], false, "T2", 2⟩,
         ⟨"c", "", ["pin"], true, "T3", 3⟩]).1
      = [⟨"b-T2-hh", ⟨"b-T2-hh", "b", "/bk/b-T2-hh.backup", "/s", 2, 1, "ck",
          "", [], false⟩⟩,
         ⟨"c-T3-hh", ⟨"c-T3-hh", "c", "/bk/c-T3-hh.backup", "/s", 3, 1, "ck",
          "", ["pin"], true⟩⟩] ∧
    listBackups (runCreates ⟨fun _ => "ck", fun _ => "hh", "/bk", 2⟩ "/s"
        ([], [("/s", [7])])
        [⟨"a", "", [], true, "T1", 1⟩, ⟨"b", "", [], false, "T2", 2⟩,
         ⟨"c", "", ["pin"], true, "T3", 3⟩]).1
      = [⟨"c-T3-hh", "c", "/bk/c-T3-hh.backup", "/s", 3, 1, "ck", "", ["pin"], true⟩,
         ⟨"b-T2-hh", "b", "/bk/b-T2-hh.backup", "/s", 2, 1, "ck", "", [], false⟩] := by
  have h := backup_retention ⟨fun _ => "ck", fun _ => "hh", "/bk", 2⟩ "/s" [7]
    [⟨"a", "", [], true, "T1", 1⟩, ⟨"b", "", [], false, "T2", 2⟩,
     ⟨"c", "", ["pin"], true, "T3", 3⟩] [("/s", [7])]
    (by decide) (by decide) (by decide) (by decide) (by decide)
  refine ⟨?_, ?_⟩
  · rw [h.1]; rfl
  · rw [h.2.2]; rfl

end MHost
